import Mathlib

/-!
Shallow embedding of `seq2seq/decoders/attention_decoder.py`
(class `AttentionDecoder`, an RNN decoder with attention).

Tensors are modelled as nested lists of rationals:
a batched vector (shape `[B, n]`) is a `Mat := List (List ℚ)`,
a batched sequence (shape `[B, T, n]`) is a `Tensor3`.
The external collaborators (recurrent cell, attention function, input
function, prediction function) are fields of the decoder record, as they
are constructor arguments in the source.  The two `fully_connected`
layers created in `compute_output` (variable scopes `attention_mix` and
`logits`) are modelled as explicit weight/bias records, and `tf.nn.tanh`
as an abstract scalar function, since their numerics live in the tensor
runtime, not in this file.
-/

namespace Seq2Seq

abbrev Vec : Type := List ℚ

abbrev Mat : Type := List Vec

abbrev Tensor3 : Type := List Mat

/-- Model of `tf.concat([a, b], 1)`: row-wise concatenation of two batched matrices. -/
def concat1 (a b : Mat) : Mat :=
  List.zipWith (fun x y => x ++ y) a b

/-- Model of `tf.zeros([b, f])`. -/
def zeros2 (b f : Nat) : Mat :=
  List.replicate b (List.replicate f 0)

/-- Model of `tf.shape(t)[1]` for a 3-axis tensor: the (uniform) second-axis length. -/
def shape1 (t : Tensor3) : Nat :=
  (t.headD []).length

/-- Model of `t.get_shape()[2]` for a 3-axis tensor: the (uniform) third-axis length. -/
def getShape2 (t : Tensor3) : Nat :=
  ((t.headD []).headD []).length

/-- Dot product of two vectors. -/
def dot (xs ys : Vec) : ℚ :=
  (List.zipWith (fun a b => a * b) xs ys).sum

/-- The trainable variables of one `tf.contrib.layers.fully_connected`
layer: one input-weight row per output unit, plus a bias per output
unit. -/
structure DenseLayer where
  weights : List Vec
  bias : Vec

/-- Apply a dense layer to one input row: output unit `j` is
`act (dot x weights[j] + bias[j])`. -/
def DenseLayer.applyRow (act : ℚ → ℚ) (l : DenseLayer) (x : Vec) : Vec :=
  List.zipWith (fun w b => act (dot x w + b)) l.weights l.bias

/-- Model of `tf.contrib.layers.fully_connected` applied to a batch (one row
per example). -/
def fully_connected (act : ℚ → ℚ) (l : DenseLayer) (inputs : Mat) : Mat :=
  inputs.map (l.applyRow act)

/-- The layer has `n` output units (as created by `fully_connected` with
`num_outputs = n`). -/
def DenseLayer.hasOutDim (l : DenseLayer) (n : Nat) : Prop :=
  l.weights.length = n ∧ l.bias.length = n

instance (l : DenseLayer) (n : Nat) : Decidable (l.hasOutDim n) := by
  unfold DenseLayer.hasOutDim; infer_instance

/-- One row of `tf.reverse_sequence`: reverse the first `len` entries,
leave the rest in place. -/
def reverse_row (len : Nat) (row : Vec) : Vec :=
  (row.take len).reverse ++ row.drop len

/-- Model of `tf.reverse_sequence(input, seq_lengths, seq_dim=1, batch_dim=0)`. -/
def reverse_sequence (seq_lengths : List Nat) (input : Mat) : Mat :=
  List.zipWith reverse_row seq_lengths input

/-- First index of the largest element (accumulator: `i` is the index of
the next element of `rest` in the original list, `best`/`bv` the current
best index and value). -/
def argmaxAux : List ℚ → Nat → Nat → ℚ → Nat
  | [], _, best, _ => best
  | x :: rest, i, best, bv =>
      if bv < x then argmaxAux rest (i + 1) i x
      else argmaxAux rest (i + 1) best bv

/-- Index of the largest element of a vector (first occurrence),
modelling `tf.argmax` on one row of logits. -/
def argmax : List ℚ → Nat
  | [] => 0
  | x :: rest => argmaxAux rest 1 0 x

/-- Modelled from the spec: the default `prediction_fn` is installed by
the base class `DecoderBase`, whose source is not part of this
repository snapshot; per the spec it "generates a predictions of shape
`[B]` from a logits of shape `[B, vocab_size]`. By default, this is
argmax". -/
def default_prediction_fn (logits : Mat) : List Nat :=
  logits.map argmax

/-- The `AttentionDecoderOutput` named tuple, the per-step output. -/
structure AttentionDecoderOutput where
  logits : Mat
  predicted_ids : List Nat
  cell_output : Mat
  attention_scores : Mat
  attention_context : Mat
  deriving DecidableEq

/-- The accumulated, batched outputs produced by the base decoder loop
(`DecoderBase._build`): each field gains a time axis. -/
structure AccumulatedOutputs where
  logits : Tensor3
  predicted_ids : List (List Nat)
  cell_output : Tensor3
  attention_scores : Tensor3
  attention_context : Tensor3

/-- An `RNNCell`: its declared output width plus its transition
function `(inputs, state) → (output, new_state)`, batched. -/
structure RNNCell (σ : Type) where
  output_size : Nat
  apply : Mat → σ → Mat × σ

/-- Per-field per-example output sizes, as declared by the
`output_size` property (`predicted_ids` is a scalar,
`tf.TensorShape([])`). -/
structure OutputSizeSpec where
  logits : Nat
  predicted_ids : Unit
  cell_output : Nat
  attention_scores : Nat
  attention_context : Nat

/-- The `AttentionDecoder` instance: constructor arguments of
`AttentionDecoder.__init__` plus the trainable layers and the `tanh`
primitive used by `compute_output`. -/
structure AttentionDecoder (σ : Type) where
  cell : RNNCell σ
  input_fn : Nat → Bool → Option AttentionDecoderOutput → Mat × List Bool
  initial_state : σ
  vocab_size : Nat
  attention_inputs : Tensor3
  attention_fn : Mat → Tensor3 → Mat × Mat
  max_decode_length : Nat
  reverse_scores_lengths : Option (List Nat)
  attention_inputs_max_len : Nat
  prediction_fn : Mat → List Nat
  attention_mix : DenseLayer
  logits_layer : DenseLayer
  tanh : ℚ → ℚ

namespace AttentionDecoder

variable {σ : Type}

/-- The `output_size` property. -/
def output_size (D : AttentionDecoder σ) : OutputSizeSpec :=
  { logits := D.vocab_size
    predicted_ids := ()
    cell_output := D.cell.output_size
    attention_scores := D.attention_inputs_max_len
    attention_context := getShape2 D.attention_inputs }

/-- Model of `AttentionDecoder.initialize`: call the input function with the
initial flag, concatenate a zero attention context of width
`attention_inputs.get_shape()[2]` onto the first inputs, and return
`(finished, first_inputs, initial_state)`. -/
def init (D : AttentionDecoder σ) : List Bool × Mat × σ :=
  let fi := D.input_fn 0 true none
  let first_inputs := fi.1
  let finished := fi.2
  let attention_context := zeros2 first_inputs.length (getShape2 D.attention_inputs)
  (finished, concat1 first_inputs attention_context, D.initial_state)

/-- Model of `AttentionDecoder._pad_att_scores`: right-pad every row with zeros
by `attention_inputs_max_len - tf.shape(scores)[1]`; `tf.pad` fails when
that amount is negative. -/
def pad_att_scores (D : AttentionDecoder σ) (scores : Mat) : Option Mat :=
  let w := (scores.headD []).length
  if D.attention_inputs_max_len < w then none
  else some (scores.map (fun r => r ++ List.replicate (D.attention_inputs_max_len - w) 0))

/-- Model of `AttentionDecoder.compute_output`: attention, then the tanh
`attention_mix` layer on `concat([cell_output, attention_context], 1)`,
then the linear `logits` layer; returns
`(softmax_input, logits, att_scores, attention_context)`. -/
def compute_output (D : AttentionDecoder σ) (cell_output : Mat) :
    Mat × Mat × Mat × Mat :=
  let p := D.attention_fn cell_output D.attention_inputs
  let att_scores := p.1
  let attention_context := p.2
  let softmax_input :=
    fully_connected D.tanh D.attention_mix (concat1 cell_output attention_context)
  let logits := fully_connected (fun x => x) D.logits_layer softmax_input
  (softmax_input, logits, att_scores, attention_context)

/-- Model of `AttentionDecoder.step`. -/
def step (D : AttentionDecoder σ) (time_ : Nat) (inputs : Mat) (state : σ) :
    Option (AttentionDecoderOutput × σ × Mat × List Bool) :=
  let c := D.cell.apply inputs state
  let cell_output := c.1
  let cell_state := c.2
  let co := D.compute_output cell_output
  let cell_output_new := co.1
  let logits := co.2.1
  let att_scores := co.2.2.1
  let attention_context := co.2.2.2
  match D.pad_att_scores att_scores with
  | none => none
  | some padded =>
      let attention_scores :=
        match D.reverse_scores_lengths with
        | some lens => reverse_sequence lens padded
        | none => padded
      let predicted_ids := D.prediction_fn logits
      let outputs : AttentionDecoderOutput :=
        { logits := logits
          predicted_ids := predicted_ids
          cell_output := cell_output_new
          attention_scores := attention_scores
          attention_context := attention_context }
      let nf := D.input_fn (time_ + 1) false (some outputs)
      some (outputs, cell_state, concat1 nf.1 attention_context, nf.2)

/-- Model of `AttentionDecoder._build`: post-process the base loop's result by
slicing `attention_scores` on the last axis to
`tf.shape(attention_inputs)[1]`.  The base loop (`DecoderBase._build`)
is an external collaborator; its result is taken as an argument. -/
def build (D : AttentionDecoder σ) (superOutputs : AccumulatedOutputs)
    (final_state : σ) : AccumulatedOutputs × σ :=
  let source_len := shape1 D.attention_inputs
  ({ superOutputs with
      attention_scores :=
        superOutputs.attention_scores.map (fun ex => ex.map (fun row => row.take source_len)) },
   final_state)

end AttentionDecoder

/-! ### Basic lemmas about list indexing and the tensor operations -/

theorem map_getElem! {α β : Type} [Inhabited α] [Inhabited β] (f : α → β) (l : List α)
    (i : Nat) (h : i < l.length) : (l.map f)[i]! = f l[i]! := by
  have h' : i < (l.map f).length := by simpa
  rw [getElem!_pos (l.map f) i h', getElem!_pos l i h]
  exact List.getElem_map ..

theorem zipWith_getElem! {α β γ : Type} [Inhabited α] [Inhabited β] [Inhabited γ]
    (f : α → β → γ) (a : List α) (b : List β) (i : Nat)
    (h1 : i < a.length) (h2 : i < b.length) :
    (List.zipWith f a b)[i]! = f a[i]! b[i]! := by
  have h : i < (List.zipWith f a b).length := by
    rw [List.length_zipWith]; omega
  rw [getElem!_pos (List.zipWith f a b) i h, getElem!_pos a i h1, getElem!_pos b i h2]
  exact List.getElem_zipWith ..

theorem append_getElem!_left {α : Type} [Inhabited α] (a b : List α) (j : Nat)
    (h : j < a.length) : (a ++ b)[j]! = a[j]! := by
  have h' : j < (a ++ b).length := by simp; omega
  rw [getElem!_pos (a ++ b) j h', getElem!_pos a j h]
  exact List.getElem_append_left h

theorem append_getElem!_right {α : Type} [Inhabited α] (a b : List α) (j : Nat)
    (h1 : a.length ≤ j) (h2 : j < a.length + b.length) :
    (a ++ b)[j]! = b[j - a.length]! := by
  have h' : j < (a ++ b).length := by simp; omega
  have h'' : j - a.length < b.length := by omega
  rw [getElem!_pos (a ++ b) j h', getElem!_pos b (j - a.length) h'']
  exact List.getElem_append_right h1

theorem replicate_getElem! {α : Type} [Inhabited α] (n : Nat) (x : α) (k : Nat)
    (h : k < n) : (List.replicate n x)[k]! = x := by
  have h' : k < (List.replicate n x).length := by simpa
  rw [getElem!_pos (List.replicate n x) k h']
  exact List.getElem_replicate ..

theorem drop_getElem! {α : Type} [Inhabited α] (l : List α) (n i : Nat)
    (h : n + i < l.length) : (l.drop n)[i]! = l[n + i]! := by
  have h1 : i < (l.drop n).length := by simp; omega
  rw [getElem!_pos (l.drop n) i h1, getElem!_pos l (n + i) h]
  exact List.getElem_drop ..

theorem length_concat1 (a b : Mat) : (concat1 a b).length = min a.length b.length :=
  List.length_zipWith ..

theorem concat1_getElem (a b : Mat) (i : Nat) (h1 : i < a.length) (h2 : i < b.length) :
    (concat1 a b)[i]! = a[i]! ++ b[i]! := by
  have hlen : i < (concat1 a b).length := by
    rw [length_concat1]; omega
  rw [getElem!_pos (concat1 a b) i hlen, getElem!_pos a i h1, getElem!_pos b i h2]
  exact List.getElem_zipWith ..

theorem zeros2_getElem (b f i : Nat) (h : i < b) :
    (zeros2 b f)[i]! = List.replicate f 0 := by
  have hlen : i < (zeros2 b f).length := by simpa [zeros2]
  rw [getElem!_pos (zeros2 b f) i hlen]
  exact List.getElem_replicate ..

theorem length_reverse_row (l : Nat) (r : Vec) : (reverse_row l r).length = r.length := by
  simp [reverse_row]
  omega

theorem reverse_row_involutive (l : Nat) (r : Vec) :
    reverse_row l (reverse_row l r) = r := by
  unfold reverse_row
  rcases le_or_lt l r.length with h | h
  · have hA : (r.take l).reverse.length = l := by simp; omega
    rw [List.take_left' hA, List.drop_left' hA, List.reverse_reverse,
      List.take_append_drop]
  · have ht : r.take l = r := List.take_of_length_le (le_of_lt h)
    have hd : r.drop l = [] := List.drop_eq_nil_of_le (le_of_lt h)
    rw [ht, hd, List.append_nil]
    have ht2 : r.reverse.take l = r.reverse := by
      refine List.take_of_length_le ?_
      simpa using le_of_lt h
    have hd2 : r.reverse.drop l = [] := by
      refine List.drop_eq_nil_of_le ?_
      simpa using le_of_lt h
    rw [ht2, hd2, List.append_nil, List.reverse_reverse]

theorem reverse_row_getElem_of_le (l : Nat) (r : Vec) (j : Nat)
    (h1 : l ≤ j) (h2 : j < r.length) :
    (reverse_row l r)[j]! = r[j]! := by
  have hA : (r.take l).reverse.length = l := by simp; omega
  unfold reverse_row
  rw [append_getElem!_right _ _ j (by simp; omega) (by simp; omega), hA,
    drop_getElem! r l (j - l) (by omega)]
  have hidx : l + (j - l) = j := by omega
  rw [hidx]

theorem length_reverse_sequence (lens : List Nat) (m : Mat) :
    (reverse_sequence lens m).length = min lens.length m.length :=
  List.length_zipWith ..

theorem reverse_sequence_getElem (lens : List Nat) (m : Mat) (i : Nat)
    (h1 : i < lens.length) (h2 : i < m.length) :
    (reverse_sequence lens m)[i]! = reverse_row lens[i]! m[i]! := by
  have hlen : i < (reverse_sequence lens m).length := by
    rw [length_reverse_sequence]; omega
  rw [getElem!_pos (reverse_sequence lens m) i hlen, getElem!_pos lens i h1,
    getElem!_pos m i h2]
  exact List.getElem_zipWith ..

theorem reverse_sequence_involutive (lens : List Nat) (m : Mat)
    (h : lens.length = m.length) :
    reverse_sequence lens (reverse_sequence lens m) = m := by
  induction m generalizing lens with
  | nil =>
      cases lens with
      | nil => rfl
      | cons l ls => simp at h
  | cons r rs ih =>
      cases lens with
      | nil => simp at h
      | cons l ls =>
          have h' : ls.length = rs.length := by
            simpa using h
          simp only [reverse_sequence, List.zipWith_cons_cons]
          rw [reverse_row_involutive]
          have hr : List.zipWith reverse_row ls (List.zipWith reverse_row ls rs) = rs :=
            ih ls h'
          rw [hr]

theorem length_fully_connected (act : ℚ → ℚ) (l : DenseLayer) (inputs : Mat) :
    (fully_connected act l inputs).length = inputs.length := by
  simp [fully_connected]

theorem fully_connected_row_length (act : ℚ → ℚ) (l : DenseLayer) (n : Nat)
    (h : l.hasOutDim n) (inputs : Mat) :
    ∀ row ∈ fully_connected act l inputs, row.length = n := by
  intro row hrow
  simp only [fully_connected, List.mem_map] at hrow
  obtain ⟨x, hx, rfl⟩ := hrow
  simp [DenseLayer.applyRow, List.length_zipWith, h.1, h.2]

theorem fully_connected_getElem (act : ℚ → ℚ) (l : DenseLayer) (inputs : Mat)
    (i j : Nat) (hi : i < inputs.length) (hj1 : j < l.weights.length)
    (hj2 : j < l.bias.length) :
    ((fully_connected act l inputs)[i]!)[j]! =
      act (dot inputs[i]! l.weights[j]! + l.bias[j]!) := by
  have e1 : (fully_connected act l inputs)[i]! = l.applyRow act inputs[i]! := by
    unfold fully_connected
    exact map_getElem! _ inputs i hi
  rw [e1]
  unfold DenseLayer.applyRow
  exact zipWith_getElem! _ l.weights l.bias j hj1 hj2

/-- Inversion principle for a successful `step`: names each component of
the returned tuple in terms of the cell, attention, padding and input
function applications inside the step. -/
theorem AttentionDecoder.step_inv {σ : Type} (D : AttentionDecoder σ) (t : Nat)
    (inputs : Mat) (state : σ) (outs : AttentionDecoderOutput) (st : σ) (nxt : Mat)
    (fin : List Bool)
    (hstep : D.step t inputs state = some (outs, st, nxt, fin)) :
    ∃ padded,
      D.pad_att_scores (D.compute_output (D.cell.apply inputs state).1).2.2.1 =
        some padded ∧
      outs.logits = (D.compute_output (D.cell.apply inputs state).1).2.1 ∧
      outs.predicted_ids = D.prediction_fn outs.logits ∧
      outs.cell_output = (D.compute_output (D.cell.apply inputs state).1).1 ∧
      outs.attention_scores =
        (match D.reverse_scores_lengths with
          | some lens => reverse_sequence lens padded
          | none => padded) ∧
      outs.attention_context = (D.compute_output (D.cell.apply inputs state).1).2.2.2 ∧
      st = (D.cell.apply inputs state).2 ∧
      nxt = concat1 (D.input_fn (t + 1) false (some outs)).1 outs.attention_context ∧
      fin = (D.input_fn (t + 1) false (some outs)).2 := by
  cases hpad : D.pad_att_scores (D.compute_output (D.cell.apply inputs state).1).2.2.1 with
  | none =>
      simp only [AttentionDecoder.step, hpad] at hstep
      exact Option.noConfusion hstep
  | some padded =>
      refine ⟨padded, rfl, ?_⟩
      simp only [AttentionDecoder.step, hpad] at hstep
      obtain ⟨ho, hst, hnxt, hfin⟩ := by
        simpa only [Option.some.injEq, Prod.mk.injEq] using hstep
      subst ho hst hnxt hfin
      refine ⟨rfl, rfl, rfl, rfl, rfl, rfl, rfl, rfl⟩

/-! ### Concrete instances used by the witnesses -/

/-- A concrete recurrent cell over trivial state: echoes its inputs. -/
def testCell : RNNCell Unit :=
  ⟨2, fun m s => (m, s)⟩

/-- A concrete decoder over batch size 1, source length 5, feature
width 2, vocabulary size 3, `attention_inputs_max_len = 8`; the `tanh`
primitive is instantiated with the identity so that the fixture is
exactly computable. -/
def testDecoder : AttentionDecoder Unit where
  cell := testCell
  input_fn := fun _ initial _ => (if initial then [[1, 2]] else [[3, 4]], [false])
  initial_state := ()
  vocab_size := 3
  attention_inputs := [[[1, 0], [0, 1], [1, 1], [2, 0], [0, 2]]]
  attention_fn := fun _ _ => ([[1, 2, 3, 4, 5]], [[1, 0]])
  max_decode_length := 4
  reverse_scores_lengths := none
  attention_inputs_max_len := 8
  prediction_fn := default_prediction_fn
  attention_mix := ⟨[[1, 0, 0, 0, 0, 0], [0, 1, 0, 0, 0, 0]], [0, 0]⟩
  logits_layer := ⟨[[1, 0], [0, 1], [1, 1]], [0, 0, 0]⟩
  tanh := fun x => x

/-- Same decoder with `reverse_scores_lengths = [5]`. -/
def testDecoderRev : AttentionDecoder Unit :=
  { testDecoder with reverse_scores_lengths := some [5] }

/-! ### The claims -/

/-- C1: for a uniform-width raw score matrix, `_pad_att_scores` pads
each example's scores on the right with zeros up to exactly
`attention_inputs_max_len` columns, keeping the original entries in
place, and fails (the `tf.pad` amount is negative) whenever
`attention_inputs_max_len` is smaller than the actual score length. -/
theorem pad_att_scores_spec {σ : Type} (D : AttentionDecoder σ) (scores : Mat) (w : Nat)
    (hne : scores ≠ []) (hw : ∀ r ∈ scores, r.length = w) :
    (D.attention_inputs_max_len < w → D.pad_att_scores scores = none) ∧
    (w ≤ D.attention_inputs_max_len →
      ∃ padded, D.pad_att_scores scores = some padded ∧
        padded.length = scores.length ∧
        (∀ r ∈ padded, r.length = D.attention_inputs_max_len) ∧
        ∀ i j, i < scores.length → j < D.attention_inputs_max_len →
          (w ≤ j → (padded[i]!)[j]! = 0) ∧
          (j < w → (padded[i]!)[j]! = (scores[i]!)[j]!)) := by
  have hhead : (scores.headD []).length = w := by
    cases scores with
    | nil => exact absurd rfl hne
    | cons s rest => exact hw s (List.mem_cons_self ..)
  constructor
  · intro hlt
    simp only [AttentionDecoder.pad_att_scores, hhead]
    rw [if_pos hlt]
  · intro hle
    refine ⟨scores.map (fun r => r ++ List.replicate (D.attention_inputs_max_len - w) 0),
      ?_, by simp, ?_, ?_⟩
    · simp only [AttentionDecoder.pad_att_scores, hhead]
      rw [if_neg (by omega)]
    · intro r hr
      simp only [List.mem_map] at hr
      obtain ⟨x, hx, rfl⟩ := hr
      have hx' := hw x hx
      simp [hx']
      omega
    · intro i j hi hj
      have hrow :
          (scores.map (fun r => r ++ List.replicate (D.attention_inputs_max_len - w) 0))[i]! =
            scores[i]! ++ List.replicate (D.attention_inputs_max_len - w) 0 :=
        map_getElem! _ scores i hi
      have hwi : (scores[i]!).length = w := by
        rw [getElem!_pos scores i hi]
        exact hw _ (List.getElem_mem ..)
      constructor
      · intro hwj
        rw [hrow, append_getElem!_right _ _ j (by omega) (by simp [hwi]; omega)]
        exact replicate_getElem! _ _ _ (by omega)
      · intro hjw
        rw [hrow, append_getElem!_left _ _ j (by omega)]

/-- Witness for C1 at the spec's example scenario: two examples, source
length 5, `attention_inputs_max_len = 8` (so entries 5, 6, 7 of each
padded row are zero). -/
theorem pad_att_scores_spec_witness :
    (([[1, 2, 3, 4, 5], [2, 3, 4, 5, 6]] : Mat) ≠ []) ∧
    (∀ r ∈ ([[1, 2, 3, 4, 5], [2, 3, 4, 5, 6]] : Mat), r.length = 5) ∧
    5 ≤ testDecoder.attention_inputs_max_len ∧
    (∃ padded,
      testDecoder.pad_att_scores [[1, 2, 3, 4, 5], [2, 3, 4, 5, 6]] = some padded ∧
      padded.length = ([[1, 2, 3, 4, 5], [2, 3, 4, 5, 6]] : Mat).length ∧
      (∀ r ∈ padded, r.length = testDecoder.attention_inputs_max_len) ∧
      ∀ i j, i < ([[1, 2, 3, 4, 5], [2, 3, 4, 5, 6]] : Mat).length →
        j < testDecoder.attention_inputs_max_len →
        (5 ≤ j → (padded[i]!)[j]! = 0) ∧
        (j < 5 → (padded[i]!)[j]! = ((([[1, 2, 3, 4, 5], [2, 3, 4, 5, 6]] : Mat))[i]!)[j]!)) :=
  ⟨by decide, by decide, by decide,
    (pad_att_scores_spec testDecoder [[1, 2, 3, 4, 5], [2, 3, 4, 5, 6]] 5
      (by decide) (by decide)).2 (by decide)⟩

/-- C2: the declared per-step output size of the `attention_scores`
field equals `attention_inputs_max_len`, and `_build` slices the
accumulated `attention_scores` along the last axis to exactly the
actual source length (the second axis of `attention_inputs`). -/
theorem output_size_build_slice {σ : Type} (D : AttentionDecoder σ)
    (acc : AccumulatedOutputs) (st : σ)
    (hlen : ∀ ex ∈ acc.attention_scores, ∀ row ∈ ex,
      shape1 D.attention_inputs ≤ row.length) :
    D.output_size.attention_scores = D.attention_inputs_max_len ∧
    (D.build acc st).1.attention_scores =
      acc.attention_scores.map
        (fun ex => ex.map (fun row => row.take (shape1 D.attention_inputs))) ∧
    ∀ ex ∈ (D.build acc st).1.attention_scores, ∀ row ∈ ex,
      row.length = shape1 D.attention_inputs := by
  refine ⟨rfl, rfl, ?_⟩
  intro ex hex row hrow
  simp only [AttentionDecoder.build, List.mem_map] at hex
  obtain ⟨ex0, hex0, rfl⟩ := hex
  simp only [List.mem_map] at hrow
  obtain ⟨row0, hrow0, rfl⟩ := hrow
  have hge := hlen ex0 hex0 row0 hrow0
  simp [List.length_take]
  omega

/-- A concrete accumulated-outputs value (one example, one time step,
padded score width 8) for the C2 witness. -/
def testAcc : AccumulatedOutputs :=
  ⟨[[[1, 2, 3]]], [[2]], [[[1, 2]]], [[[1, 2, 3, 4, 5, 0, 0, 0]]], [[[1, 0]]]⟩

/-- Witness for C2 on `testDecoder` (source length 5, max length 8). -/
theorem output_size_build_slice_witness :
    (∀ ex ∈ testAcc.attention_scores, ∀ row ∈ ex,
      shape1 testDecoder.attention_inputs ≤ row.length) ∧
    (testDecoder.output_size.attention_scores = testDecoder.attention_inputs_max_len ∧
      (testDecoder.build testAcc ()).1.attention_scores =
        testAcc.attention_scores.map
          (fun ex => ex.map (fun row => row.take (shape1 testDecoder.attention_inputs))) ∧
      ∀ ex ∈ (testDecoder.build testAcc ()).1.attention_scores, ∀ row ∈ ex,
        row.length = shape1 testDecoder.attention_inputs) :=
  ⟨by decide, output_size_build_slice testDecoder testAcc () (by decide)⟩

/-- C7: reversing a padded score matrix with `reverse_scores_lengths`
set to the same full source length for every example, twice, reproduces
the original matrix (per-example reversal is an involution). -/
theorem reverse_scores_roundtrip (m : Mat) (srcLen : Nat) :
    reverse_sequence (List.replicate m.length srcLen)
      (reverse_sequence (List.replicate m.length srcLen) m) = m :=
  reverse_sequence_involutive _ m (by simp)

/-- C10: `_build` changes only the `attention_scores` field of the
accumulated outputs; `logits`, `predicted_ids`, `cell_output`,
`attention_context` and the final recurrent state pass through
unchanged. -/
theorem build_frame {σ : Type} (D : AttentionDecoder σ) (acc : AccumulatedOutputs)
    (st : σ) :
    (D.build acc st).1.logits = acc.logits ∧
    (D.build acc st).1.predicted_ids = acc.predicted_ids ∧
    (D.build acc st).1.cell_output = acc.cell_output ∧
    (D.build acc st).1.attention_context = acc.attention_context ∧
    (D.build acc st).2 = st :=
  ⟨rfl, rfl, rfl, rfl, rfl⟩

/-- C3: `compute_output` first maps the concatenation of the cell
output with the attention context through the dense `attention_mix`
layer with `tanh` activation, whose output width equals the cell's
output size, and then maps the mixed vector through the dense `logits`
layer with no activation, whose output width equals `vocab_size`. -/
theorem compute_output_spec {σ : Type} (D : AttentionDecoder σ) (cell_output : Mat)
    (hmix : D.attention_mix.hasOutDim D.cell.output_size)
    (hlog : D.logits_layer.hasOutDim D.vocab_size) :
    (D.compute_output cell_output).1 =
      fully_connected D.tanh D.attention_mix
        (concat1 cell_output (D.attention_fn cell_output D.attention_inputs).2) ∧
    (∀ row ∈ (D.compute_output cell_output).1, row.length = D.cell.output_size) ∧
    (D.compute_output cell_output).2.1 =
      fully_connected (fun x => x) D.logits_layer (D.compute_output cell_output).1 ∧
    (∀ row ∈ (D.compute_output cell_output).2.1, row.length = D.vocab_size) ∧
    (∀ i j,
      i < (concat1 cell_output (D.attention_fn cell_output D.attention_inputs).2).length →
      j < D.cell.output_size →
      (((D.compute_output cell_output).1)[i]!)[j]! =
        D.tanh (dot
          ((concat1 cell_output (D.attention_fn cell_output D.attention_inputs).2)[i]!)
          (D.attention_mix.weights[j]!) + (D.attention_mix.bias)[j]!)) := by
  refine ⟨rfl, fully_connected_row_length _ _ _ hmix _, rfl,
    fully_connected_row_length _ _ _ hlog _, ?_⟩
  intro i j hi hj
  exact fully_connected_getElem _ _ _ i j hi
    (by rw [hmix.1]; exact hj) (by rw [hmix.2]; exact hj)

/-- Witness for C3 on `testDecoder`, instantiating the elementwise
characterisation at example 0, output unit 0. -/
theorem compute_output_spec_witness :
    testDecoder.attention_mix.hasOutDim testDecoder.cell.output_size ∧
    testDecoder.logits_layer.hasOutDim testDecoder.vocab_size ∧
    (0 < (concat1 [[(1 : ℚ), 2, 3, 4]]
      (testDecoder.attention_fn [[(1 : ℚ), 2, 3, 4]] testDecoder.attention_inputs).2).length) ∧
    (((testDecoder.compute_output [[(1 : ℚ), 2, 3, 4]]).1)[0]!)[0]! =
      testDecoder.tanh (dot
        ((concat1 [[(1 : ℚ), 2, 3, 4]]
          (testDecoder.attention_fn [[(1 : ℚ), 2, 3, 4]] testDecoder.attention_inputs).2)[0]!)
        (testDecoder.attention_mix.weights[0]!) + (testDecoder.attention_mix.bias)[0]!) :=
  ⟨by decide, by decide, by decide,
    (compute_output_spec testDecoder [[(1 : ℚ), 2, 3, 4]] (by decide) (by decide)).2.2.2.2
      0 0 (by decide) (by decide)⟩

/-- C4: `initialize` calls the input function with the initial flag and
returns (finished flags, first input, initial state), where the first
input is the input function's vector with an all-zero attention-context
block of width `attention_inputs.get_shape()[2]` appended; its total
width is the raw width plus the attention feature width and the context
portion is all zeros. -/
theorem init_spec {σ : Type} (D : AttentionDecoder σ) :
    D.init.1 = (D.input_fn 0 true none).2 ∧
    D.init.2.2 = D.initial_state ∧
    D.init.2.1 =
      concat1 (D.input_fn 0 true none).1
        (zeros2 (D.input_fn 0 true none).1.length (getShape2 D.attention_inputs)) ∧
    ∀ i, i < (D.input_fn 0 true none).1.length →
      (D.init.2.1)[i]! =
        ((D.input_fn 0 true none).1)[i]! ++
          List.replicate (getShape2 D.attention_inputs) 0 ∧
      ((D.init.2.1)[i]!).length =
        (((D.input_fn 0 true none).1)[i]!).length + getShape2 D.attention_inputs ∧
      ((D.init.2.1)[i]!).drop (((D.input_fn 0 true none).1)[i]!).length =
        List.replicate (getShape2 D.attention_inputs) 0 := by
  refine ⟨rfl, rfl, rfl, ?_⟩
  intro i hi
  have hz : i < (zeros2 (D.input_fn 0 true none).1.length
      (getShape2 D.attention_inputs)).length := by
    simpa [zeros2]
  have hcat : (D.init.2.1)[i]! =
      ((D.input_fn 0 true none).1)[i]! ++
        List.replicate (getShape2 D.attention_inputs) 0 := by
    show (concat1 (D.input_fn 0 true none).1
      (zeros2 (D.input_fn 0 true none).1.length (getShape2 D.attention_inputs)))[i]! = _
    rw [concat1_getElem _ _ i hi hz, zeros2_getElem _ _ i hi]
  refine ⟨hcat, ?_, ?_⟩
  · rw [hcat]
    simp
  · rw [hcat]
    exact List.drop_left _ _

/-- Witness for C4 on `testDecoder` (raw first input `[1, 2]`, feature
width 2, augmented first input `[1, 2, 0, 0]`). -/
theorem init_spec_witness :
    (testDecoder.init.2.1)[0]! =
      ((testDecoder.input_fn 0 true none).1)[0]! ++
        List.replicate (getShape2 testDecoder.attention_inputs) 0 ∧
    ((testDecoder.init.2.1)[0]!).length =
      (((testDecoder.input_fn 0 true none).1)[0]!).length +
        getShape2 testDecoder.attention_inputs ∧
    ((testDecoder.init.2.1)[0]!).drop
        (((testDecoder.input_fn 0 true none).1)[0]!).length =
      List.replicate (getShape2 testDecoder.attention_inputs) 0 :=
  (init_spec testDecoder).2.2.2 0 (by decide)

/-- The concrete step output of `testDecoder.step 0 [[1, 2, 3, 4]] ()`. -/
def testOuts : AttentionDecoderOutput :=
  ⟨[[1, 2, 3]], [2], [[1, 2]], [[1, 2, 3, 4, 5, 0, 0, 0]], [[1, 0]]⟩

/-- The concrete step output of `testDecoderRev.step 0 [[1, 2, 3, 4]] ()`
(scores reversed up to length 5). -/
def testOutsRev : AttentionDecoderOutput :=
  ⟨[[1, 2, 3]], [2], [[1, 2]], [[5, 4, 3, 2, 1, 0, 0, 0]], [[1, 0]]⟩

/-- Concrete evaluation of one `testDecoder` step. -/
theorem testDecoder_step_eq :
    testDecoder.step 0 [[1, 2, 3, 4]] () =
      some (testOuts, (), [[3, 4, 1, 0]], [false]) := by
  norm_num [AttentionDecoder.step, AttentionDecoder.compute_output,
    AttentionDecoder.pad_att_scores, fully_connected, DenseLayer.applyRow, dot, concat1,
    testDecoder, testCell, testOuts, default_prediction_fn, argmax, argmaxAux, zeros2,
    List.replicate]

/-- Concrete evaluation of one `testDecoderRev` step. -/
theorem testDecoderRev_step_eq :
    testDecoderRev.step 0 [[1, 2, 3, 4]] () =
      some (testOutsRev, (), [[3, 4, 1, 0]], [false]) := by
  norm_num [AttentionDecoder.step, AttentionDecoder.compute_output,
    AttentionDecoder.pad_att_scores, fully_connected, DenseLayer.applyRow, dot, concat1,
    testDecoder, testDecoderRev, testCell, testOutsRev, default_prediction_fn, argmax,
    argmaxAux, zeros2, reverse_sequence, reverse_row, List.replicate]

/-- Concrete evaluation of the padded scores inside a `testDecoderRev`
step. -/
theorem testDecoderRev_pad_eq :
    testDecoderRev.pad_att_scores
      (testDecoderRev.compute_output
        (testDecoderRev.cell.apply [[1, 2, 3, 4]] ()).1).2.2.1 =
      some [[1, 2, 3, 4, 5, 0, 0, 0]] := by
  norm_num [AttentionDecoder.compute_output, AttentionDecoder.pad_att_scores,
    fully_connected, DenseLayer.applyRow, dot, concat1, testDecoder, testDecoderRev,
    testCell, List.replicate]

/-- C5: the next input returned by `step` is the input function's next
raw input (requested with time index `time_ + 1` and the step's
assembled outputs) with the current attention context vector appended
per example as its trailing block. -/
theorem step_next_inputs_spec {σ : Type} (D : AttentionDecoder σ) (t : Nat)
    (inputs : Mat) (state : σ) (outs : AttentionDecoderOutput) (st : σ) (nxt : Mat)
    (fin : List Bool)
    (hstep : D.step t inputs state = some (outs, st, nxt, fin)) :
    nxt = concat1 (D.input_fn (t + 1) false (some outs)).1 outs.attention_context ∧
    ∀ i, i < (D.input_fn (t + 1) false (some outs)).1.length →
      i < outs.attention_context.length →
      nxt[i]! = (((D.input_fn (t + 1) false (some outs)).1)[i]!) ++
        ((outs.attention_context)[i]!) := by
  obtain ⟨padded, hpad, hl, hp, hc, hs, hctx, hst, hnxt, hfin⟩ :=
    AttentionDecoder.step_inv D t inputs state outs st nxt fin hstep
  refine ⟨hnxt, ?_⟩
  intro i h1 h2
  rw [hnxt]
  exact concat1_getElem _ _ i h1 h2

/-- Witness for C5 on `testDecoder`: next raw input `[3, 4]`, context
`[1, 0]`, next input `[3, 4, 1, 0]`. -/
theorem step_next_inputs_spec_witness :
    testDecoder.step 0 [[1, 2, 3, 4]] () = some (testOuts, (), [[3, 4, 1, 0]], [false]) ∧
    ([[3, 4, 1, 0]] : Mat) =
      concat1 (testDecoder.input_fn 1 false (some testOuts)).1 testOuts.attention_context :=
  ⟨testDecoder_step_eq,
    (step_next_inputs_spec testDecoder 0 [[1, 2, 3, 4]] () testOuts () [[3, 4, 1, 0]]
      [false] testDecoder_step_eq).1⟩

/-- C9: the `cell_output` field of the assembled step output is not the
raw recurrent-cell output but the tanh-mixed projection produced by the
`attention_mix` layer (the `softmax_input`), while the state returned
by `step` is exactly the cell's new state. -/
theorem step_cell_output_spec {σ : Type} (D : AttentionDecoder σ) (t : Nat)
    (inputs : Mat) (state : σ) (outs : AttentionDecoderOutput) (st : σ) (nxt : Mat)
    (fin : List Bool)
    (hstep : D.step t inputs state = some (outs, st, nxt, fin)) :
    st = (D.cell.apply inputs state).2 ∧
    outs.cell_output = (D.compute_output (D.cell.apply inputs state).1).1 ∧
    outs.cell_output =
      fully_connected D.tanh D.attention_mix
        (concat1 (D.cell.apply inputs state).1
          (D.attention_fn (D.cell.apply inputs state).1 D.attention_inputs).2) := by
  obtain ⟨padded, hpad, hl, hp, hc, hs, hctx, hst, hnxt, hfin⟩ :=
    AttentionDecoder.step_inv D t inputs state outs st nxt fin hstep
  exact ⟨hst, hc, hc⟩

/-- Witness for C9 on `testDecoder`: `cell_output` field `[[1, 2]]` is
the mixed projection of raw cell output `[[1, 2, 3, 4]]`, and the state
is threaded through. -/
theorem step_cell_output_spec_witness :
    testDecoder.step 0 [[1, 2, 3, 4]] () = some (testOuts, (), [[3, 4, 1, 0]], [false]) ∧
    (() = (testDecoder.cell.apply [[1, 2, 3, 4]] ()).2 ∧
      testOuts.cell_output =
        (testDecoder.compute_output (testDecoder.cell.apply [[1, 2, 3, 4]] ()).1).1 ∧
      testOuts.cell_output =
        fully_connected testDecoder.tanh testDecoder.attention_mix
          (concat1 (testDecoder.cell.apply [[1, 2, 3, 4]] ()).1
            (testDecoder.attention_fn (testDecoder.cell.apply [[1, 2, 3, 4]] ()).1
              testDecoder.attention_inputs).2)) :=
  ⟨testDecoder_step_eq,
    step_cell_output_spec testDecoder 0 [[1, 2, 3, 4]] () testOuts () [[3, 4, 1, 0]]
      [false] testDecoder_step_eq⟩

/-- C6: with `reverse_scores_lengths` provided, the padded attention
scores emitted by `step` are reversed per example up to that example's
given length, entries at or beyond that length staying in place;
without it, the padded scores are emitted unreversed. -/
theorem step_reverse_scores_spec {σ : Type} (D : AttentionDecoder σ) (t : Nat)
    (inputs : Mat) (state : σ) (outs : AttentionDecoderOutput) (st : σ) (nxt : Mat)
    (fin : List Bool) (padded : Mat)
    (hpad : D.pad_att_scores (D.compute_output (D.cell.apply inputs state).1).2.2.1 =
      some padded)
    (hstep : D.step t inputs state = some (outs, st, nxt, fin)) :
    (D.reverse_scores_lengths = none → outs.attention_scores = padded) ∧
    (∀ lens, D.reverse_scores_lengths = some lens →
      outs.attention_scores = reverse_sequence lens padded ∧
      (∀ i, i < lens.length → i < padded.length →
        (outs.attention_scores)[i]! =
          ((padded[i]!).take (lens[i]!)).reverse ++ (padded[i]!).drop (lens[i]!)) ∧
      (∀ i j, i < lens.length → i < padded.length → lens[i]! ≤ j →
        j < (padded[i]!).length →
        ((outs.attention_scores)[i]!)[j]! = (padded[i]!)[j]!)) := by
  obtain ⟨padded', hpad', hl, hp, hc, hs, hctx, hst, hnxt, hfin⟩ :=
    AttentionDecoder.step_inv D t inputs state outs st nxt fin hstep
  have hpp : padded' = padded := by
    rw [hpad] at hpad'
    exact (Option.some.inj hpad').symm
  subst hpp
  constructor
  · intro hnone
    rw [hs, hnone]
  · intro lens hlens
    rw [hs, hlens]
    refine ⟨rfl, ?_, ?_⟩
    · intro i h1 h2
      rw [reverse_sequence_getElem lens padded' i h1 h2]
      rfl
    · intro i j h1 h2 hj1 hj2
      rw [reverse_sequence_getElem lens padded' i h1 h2]
      exact reverse_row_getElem_of_le _ _ j hj1 hj2

/-- Witness for C6 on `testDecoderRev` (`reverse_scores_lengths = [5]`,
padded scores `[1, 2, 3, 4, 5, 0, 0, 0]`, emitted scores
`[5, 4, 3, 2, 1, 0, 0, 0]`). -/
theorem step_reverse_scores_spec_witness :
    testOutsRev.attention_scores = reverse_sequence [5] [[1, 2, 3, 4, 5, 0, 0, 0]] ∧
    (∀ i, i < ([5] : List Nat).length → i < ([[1, 2, 3, 4, 5, 0, 0, 0]] : Mat).length →
      (testOutsRev.attention_scores)[i]! =
        (((([[1, 2, 3, 4, 5, 0, 0, 0]] : Mat))[i]!).take ((([5] : List Nat))[i]!)).reverse ++
          ((([[1, 2, 3, 4, 5, 0, 0, 0]] : Mat))[i]!).drop ((([5] : List Nat))[i]!)) ∧
    (∀ i j, i < ([5] : List Nat).length → i < ([[1, 2, 3, 4, 5, 0, 0, 0]] : Mat).length →
      (([5] : List Nat))[i]! ≤ j → j < ((([[1, 2, 3, 4, 5, 0, 0, 0]] : Mat))[i]!).length →
      ((testOutsRev.attention_scores)[i]!)[j]! =
        ((([[1, 2, 3, 4, 5, 0, 0, 0]] : Mat))[i]!)[j]!) :=
  (step_reverse_scores_spec testDecoderRev 0 [[1, 2, 3, 4]] () testOutsRev ()
    [[3, 4, 1, 0]] [false] [[1, 2, 3, 4, 5, 0, 0, 0]] testDecoderRev_pad_eq
    testDecoderRev_step_eq).2 [5] (by decide)

/-- Invariant of the `argmaxAux` accumulator: if `rest` is the tail of
`orig` from position `i`, `best` indexes a maximum of the first `i`
entries, then the final result indexes a maximum of all of `orig`. -/
theorem argmaxAux_spec (orig : List ℚ) (rest : List ℚ) :
    ∀ (i best : Nat), rest = orig.drop i → best < orig.length →
      (∀ j, j < i → orig[j]! ≤ orig[best]!) →
      argmaxAux rest i best (orig[best]!) < orig.length ∧
        ∀ j, j < orig.length → orig[j]! ≤ orig[argmaxAux rest i best (orig[best]!)]! := by
  induction rest with
  | nil =>
      intro i best hdrop hbest hprev
      have hle : orig.length ≤ i := by
        by_contra hlt
        push_neg at hlt
        have hne : orig.drop i ≠ [] := by
          intro hnil
          rw [List.drop_eq_nil_iff] at hnil
          omega
        exact hne hdrop.symm
      exact ⟨by simpa [argmaxAux] using hbest,
        fun j hj => by simpa [argmaxAux] using hprev j (by omega)⟩
  | cons x rest ih =>
      intro i best hdrop hbest hprev
      have hi : i < orig.length := by
        by_contra hge
        push_neg at hge
        rw [List.drop_eq_nil_of_le hge] at hdrop
        exact absurd hdrop (by simp)
      have hidrop : 0 < (orig.drop i).length := by
        rw [← hdrop]
        simp
      have hx : orig[i]! = x := by
        have h0 : (orig.drop i)[0]! = x := by
          rw [← hdrop]
          simp
        rw [drop_getElem! orig i 0 (by omega)] at h0
        simpa using h0
      have hrest : rest = orig.drop (i + 1) := by
        have h2 : (x :: rest).drop 1 = orig.drop (i + 1) := by
          rw [hdrop, List.drop_drop]
        simpa using h2
      simp only [argmaxAux]
      by_cases hcmp : orig[best]! < x
      · rw [if_pos hcmp, ← hx]
        refine ih (i + 1) i hrest hi ?_
        intro j hj
        rcases Nat.lt_or_ge j i with hji | hji
        · exact le_trans (hprev j hji) (by rw [hx]; exact le_of_lt hcmp)
        · have hji' : j = i := by omega
          subst hji'
          exact le_refl _
      · rw [if_neg hcmp]
        refine ih (i + 1) best hrest hbest ?_
        intro j hj
        rcases Nat.lt_or_ge j i with hji | hji
        · exact hprev j hji
        · have hji' : j = i := by omega
          subst hji'
          rw [hx]
          exact le_of_not_lt hcmp

/-- The `argmax` of a nonempty vector is an in-range index with maximal entry. -/
theorem argmax_is_max (xs : Vec) (h : xs ≠ []) :
    argmax xs < xs.length ∧ ∀ j, j < xs.length → xs[j]! ≤ xs[argmax xs]! := by
  cases xs with
  | nil => exact absurd rfl h
  | cons x rest =>
      have h0 : (0 : Nat) < (x :: rest).length := by simp
      have hx0 : (x :: rest)[0]! = x := by
        simp
      have hres := argmaxAux_spec (x :: rest) rest 1 0 rfl h0
        (fun j hj => by
          have hj0 : j = 0 := by omega
          subst hj0
          exact le_refl _)
      rw [hx0] at hres
      simpa [argmax] using hres

/-- C8: the default prediction function used when no `prediction_fn` is
supplied at construction is per-example arg-max over the logits: the
returned index is in range and carries a maximal logit, and on logits
`[0.1, 0.9, 0.0]` it returns index 1. -/
theorem default_prediction_spec :
    default_prediction_fn [[1/10, 9/10, 0]] = [1] ∧
    (∀ logits : Mat, default_prediction_fn logits = logits.map argmax) ∧
    (∀ xs : Vec, xs ≠ [] →
      argmax xs < xs.length ∧ ∀ j, j < xs.length → xs[j]! ≤ xs[argmax xs]!) := by
  refine ⟨?_, fun _ => rfl, argmax_is_max⟩
  show [argmax [1/10, 9/10, 0]] = [1]
  norm_num [argmax, argmaxAux]

/-- Witness for C8: the arg-max of `[3, 7, 2]` is in range and maximal. -/
theorem default_prediction_spec_witness :
    (([(3 : ℚ), 7, 2] : Vec) ≠ []) ∧
    argmax [(3 : ℚ), 7, 2] < ([(3 : ℚ), 7, 2] : Vec).length ∧
    ∀ j, j < ([(3 : ℚ), 7, 2] : Vec).length →
      ([(3 : ℚ), 7, 2] : Vec)[j]! ≤ ([(3 : ℚ), 7, 2] : Vec)[argmax [(3 : ℚ), 7, 2]]! :=
  ⟨by decide, default_prediction_spec.2.2 [(3 : ℚ), 7, 2] (by decide)⟩

end Seq2Seq
